import Mathlib

/-!
Shallow embedding of `src/checklist_manager.py` (class `ChecklistManager`).

Python dictionaries for tasks become a `Task` structure; the manager's
`self.data` document becomes a `Doc` structure.  Stateful methods become
pure functions from a `Doc` (plus the current timestamp `now`, standing in
for `datetime.now().isoformat()`) to a result record that carries the new
document, whether `_save` was invoked (persistence flag), and the returned
value; a Python `raise ValueError` becomes an `Except.error` and, in result
records, leaves the document unchanged with the persistence flag false,
exactly as an exception leaves `self.data` untouched and skips `_save`.
Fields of the document that no modelled operation touches
(`phases`, `session_logs`, `success_criteria`) are omitted from `Doc`.
-/

namespace Checklist

/-- One task dictionary, as produced by `initialize`/`add_task`.
`priority` is an `Option` because JSON-loaded tasks may lack the key
(the code reads it with `task.get("priority", "MEDIUM")` in
`get_next_task`); `started_at`/`completed_at` start as `None`. -/
structure Task where
  id : Int
  title : String
  description : String
  priority : Option String
  phase : Option String
  status : String
  dependencies : List Int
  files : List String
  verification : String
  created_at : String
  started_at : Option String
  completed_at : Option String
  notes : String
deriving DecidableEq, Repr

/-- The manager's document `self.data` (fields the claims exercise). -/
structure Doc where
  project_name : String
  created_at : String
  last_updated : String
  tasks : List Task
deriving DecidableEq, Repr

/-- `VALID_STATUSES` class constant. -/
def VALID_STATUSES : List String := ["Todo", "In Progress", "Done", "Blocked", "Skipped"]

/-- `VALID_PRIORITIES` class constant. -/
def VALID_PRIORITIES : List String := ["CRITICAL", "HIGH", "MEDIUM", "LOW"]

/-- `_save`: sets `data["last_updated"]` to now and writes the file
(the write itself is represented by the `saved` flags of the result
records below). -/
def save (d : Doc) (now : String) : Doc :=
  { d with last_updated := now }

/-- The empty default document built by `_load_or_create`. -/
def emptyDoc : Doc :=
  { project_name := "", created_at := "", last_updated := "", tasks := [] }

/-- An input task specification: one element of the `tasks` list passed to
`initialize`, a dict whose keys are all optional (read with `.get`). -/
structure InputTask where
  title : Option String := none
  description : Option String := none
  priority : Option String := none
  phase : Option String := none
  dependencies : Option (List Int) := none
  files : Option (List String) := none
  verification : Option String := none
deriving DecidableEq, Repr

/-- The task record built for index `i` (1-based) inside the loop of
`initialize`: `task.get(key, default)` for each field. -/
def processTask (now : String) (i : Nat) (t : InputTask) : Task :=
  { id := (i : Int)
    title := t.title.getD ("Task " ++ toString i)
    description := t.description.getD ""
    priority := some (t.priority.getD "MEDIUM")
    phase := t.phase
    status := "Todo"
    dependencies := t.dependencies.getD []
    files := t.files.getD []
    verification := t.verification.getD ""
    created_at := now
    started_at := none
    completed_at := none
    notes := "" }

/-- `initialize(project_name, tasks, ...)`: replaces the whole document
with freshly numbered tasks (ids `1..N` via `enumerate(tasks, start=1)`)
and saves.  It performs no validation and never raises. -/
def initChecklist (project_name : String) (tasks : List InputTask) (now : String) : Doc :=
  let processed := (List.enumFrom 1 tasks).map (fun p => processTask now p.1 p.2)
  save { project_name := project_name
         created_at := now
         last_updated := now
         tasks := processed } now

/-- `get_task(task_id)`: first task whose `id` matches, else `None`. -/
def get_task (d : Doc) (task_id : Int) : Option Task :=
  d.tasks.find? (fun t => t.id == task_id)

/-- `priority_order.get(t.get("priority", "MEDIUM"), 2)` from
`get_next_task`: the dict `{"CRITICAL": 0, "HIGH": 1, "MEDIUM": 2,
"LOW": 3}` looked up with default `2`, after defaulting a missing
priority to `"MEDIUM"`. -/
def priority_order_get (p : Option String) : Nat :=
  match p.getD "MEDIUM" with
  | "CRITICAL" => 0
  | "HIGH" => 1
  | "MEDIUM" => 2
  | "LOW" => 3
  | _ => 2

/-- `done_ids = {t["id"] for t in tasks if t["status"] == "Done"}`. -/
def doneIds (d : Doc) : List Int :=
  (d.tasks.filter (fun t => t.status == "Done")).map (fun t => t.id)

/-- The `eligible` list of `get_next_task`: tasks with status `"Todo"`
whose `dependencies` form a subset of `done_ids`. -/
def eligibleTasks (d : Doc) : List Task :=
  d.tasks.filter (fun t => t.status == "Todo" && t.dependencies.all (fun dep => (doneIds d).contains dep))

/-- The comparison used by `eligible.sort(key=lambda t: priority_order.get(...))`. -/
def taskLe (a b : Task) : Prop :=
  priority_order_get a.priority ≤ priority_order_get b.priority

instance : DecidableRel taskLe := fun a b =>
  Nat.decLe (priority_order_get a.priority) (priority_order_get b.priority)

/-- `get_next_task()`: first `In Progress` task if any; otherwise the
head of the eligible list stably sorted by priority tier (Python's
`list.sort` is stable; `List.insertionSort` is the stable sort here),
or `None` when no task is eligible. -/
def get_next_task (d : Doc) : Option Task :=
  match d.tasks.find? (fun t => t.status == "In Progress") with
  | some t => some t
  | none => (List.insertionSort taskLe (eligibleTasks d)).head?

/-- Python truthiness of an optional string field such as
`task["started_at"]`: falsy iff `None` or the empty string. -/
def strOptFalsy (o : Option String) : Bool :=
  o.getD "" == ""

/-- The in-place mutation `update_task_status` performs on the matched
task dict: set `status`; then `if status == "In Progress" and not
task["started_at"]` set `started_at`, `elif status == "Done"` set
`completed_at`; then `if notes:` overwrite `notes`. -/
def applyStatus (now status : String) (notes : Option String) (t : Task) : Task :=
  let t1 := { t with status := status }
  let t2 :=
    if status == "In Progress" && strOptFalsy t1.started_at then
      { t1 with started_at := some now }
    else if status == "Done" then
      { t1 with completed_at := some now }
    else t1
  if strOptFalsy notes then t2 else { t2 with notes := notes.getD "" }

/-- The `for task in self.data["tasks"]` loop of `update_task_status`:
update the first task with matching id, leave the rest untouched;
`none` when no task matches. -/
def updateFirstTask (now status : String) (notes : Option String) (task_id : Int) :
    List Task → Option (List Task)
  | [] => none
  | t :: ts =>
      if t.id == task_id then
        some (applyStatus now status notes t :: ts)
      else
        (updateFirstTask now status notes task_id ts).map (fun l => t :: l)

instance {ε α : Type} [DecidableEq ε] [DecidableEq α] : DecidableEq (Except ε α) := fun a b =>
  match a, b with
  | .error e1, .error e2 =>
      if h : e1 = e2 then .isTrue (by subst h; rfl)
      else .isFalse (by intro hc; injection hc; contradiction)
  | .error _, .ok _ => .isFalse (by intro hc; injection hc)
  | .ok _, .error _ => .isFalse (by intro hc; injection hc)
  | .ok a1, .ok a2 =>
      if h : a1 = a2 then .isTrue (by subst h; rfl)
      else .isFalse (by intro hc; injection hc; contradiction)

/-- Result of `update_task_status`: the returned value (or the raised
`ValueError`), the document afterwards, and whether `_save` ran. -/
structure UpdateResult where
  res : Except String Bool
  doc : Doc
  saved : Bool
deriving DecidableEq

/-- `update_task_status(task_id, status, notes)`.  Invalid status raises
before touching anything; a found task is mutated and the document saved;
a missing id returns `False` without mutation or save. -/
def update_task_status (d : Doc) (now : String) (task_id : Int) (status : String)
    (notes : Option String) : UpdateResult :=
  if status ∈ VALID_STATUSES then
    match updateFirstTask now status notes task_id d.tasks with
    | some ts => { res := .ok true, doc := save { d with tasks := ts } now, saved := true }
    | none => { res := .ok false, doc := d, saved := false }
  else
    { res := .error ("Invalid status: " ++ status), doc := d, saved := false }

/-- Python `max(list_of_ids, default=0)`. -/
def pyMaxDefault0 : List Int → Int
  | [] => 0
  | x :: xs => xs.foldl max x

/-- Result of `add_task`: the returned new id (or the raised
`ValueError`), the document afterwards, and whether `_save` ran. -/
structure AddResult where
  res : Except String Int
  doc : Doc
  saved : Bool
deriving DecidableEq

/-- `add_task(title, description, priority, phase, dependencies, files,
verification)`: validates the priority, computes
`new_id = max(existing ids, default=0) + 1`, appends the new task,
saves, and returns the id. -/
def add_task (d : Doc) (now : String) (title : String) (description : String := "")
    (priority : String := "MEDIUM") (phase : Option String := none)
    (dependencies : Option (List Int) := none) (files : Option (List String) := none)
    (verification : String := "") : AddResult :=
  if priority ∈ VALID_PRIORITIES then
    let new_id := pyMaxDefault0 (d.tasks.map (fun t => t.id)) + 1
    let new_task : Task :=
      { id := new_id
        title := title
        description := description
        priority := some priority
        phase := phase
        status := "Todo"
        dependencies := dependencies.getD []
        files := files.getD []
        verification := verification
        created_at := now
        started_at := none
        completed_at := none
        notes := "" }
    { res := .ok new_id
      doc := save { d with tasks := d.tasks ++ [new_task] } now
      saved := true }
  else
    { res := .error ("Invalid priority: " ++ priority), doc := d, saved := false }

/-- The `for i, task in enumerate(...)` loop of `remove_task`: delete the
first task with matching id, `none` when no task matches. -/
def removeFirstTask (task_id : Int) : List Task → Option (List Task)
  | [] => none
  | t :: ts =>
      if t.id == task_id then some ts
      else (removeFirstTask task_id ts).map (fun l => t :: l)

/-- Result of `remove_task`: the returned boolean, the document
afterwards, and whether `_save` ran. -/
structure RemoveResult where
  res : Bool
  doc : Doc
  saved : Bool
deriving DecidableEq

/-- `remove_task(task_id)`: deletes the first matching task and saves,
else returns `False` untouched. -/
def remove_task (d : Doc) (now : String) (task_id : Int) : RemoveResult :=
  match removeFirstTask task_id d.tasks with
  | some ts => { res := true, doc := save { d with tasks := ts } now, saved := true }
  | none => { res := false, doc := d, saved := false }

/-- Round half to even at integer precision over the exact rationals,
the behaviour of Python's `round` on ties. -/
def roundHalfEven (q : ℚ) : ℤ :=
  let f : ℤ := ⌊q⌋
  let r : ℚ := q - (f : ℚ)
  if r < 1/2 then f
  else if r > 1/2 then f + 1
  else if f % 2 = 0 then f else f + 1

/-- Python `round(x, 1)` over the exact rationals. -/
def round1 (q : ℚ) : ℚ :=
  (roundHalfEven (q * 10) : ℚ) / 10

/-- `len([t for t in tasks if t["status"] == status])`. -/
def countStatus (d : Doc) (status : String) : Nat :=
  (d.tasks.filter (fun t => t.status == status)).length

/-- The statistics dict returned by `get_progress`; `Option Nat` counts
model dict keys that are absent in the zero-task early return. -/
structure Progress where
  total : Nat
  percentage : ℚ
  done : Option Nat
  in_progress : Option Nat
  todo : Option Nat
  blocked : Option Nat
  skipped : Option Nat
deriving DecidableEq, Repr

/-- `get_progress()`: the zero-task early return, else per-status counts
and `round((done / total) * 100, 1)`. -/
def get_progress (d : Doc) : Progress :=
  let total := d.tasks.length
  if total = 0 then
    { total := 0, done := some 0, in_progress := some 0, todo := some 0
      blocked := none, skipped := none, percentage := 0 }
  else
    let done := countStatus d "Done"
    { total := total
      percentage := round1 (((done : ℚ) / (total : ℚ)) * 100)
      done := some done
      in_progress := some (countStatus d "In Progress")
      todo := some (countStatus d "Todo")
      blocked := some (countStatus d "Blocked")
      skipped := some (countStatus d "Skipped") }

/-- First element of minimal priority tier in a list: the element a
stable sort by `priority_order_get` places at the head.  Used to state
and prove properties of `get_next_task`. -/
def firstMinTask : List Task → Option Task
  | [] => none
  | x :: xs =>
      match firstMinTask xs with
      | none => some x
      | some y => if taskLe x y then some x else some y

/-- Replace a missing or out-of-set priority by `"MEDIUM"`, leave valid
priorities alone.  Used to state that `get_next_task` treats such tasks
exactly like `MEDIUM` tasks. -/
def normalizeTask (t : Task) : Task :=
  match t.priority with
  | none => { t with priority := some "MEDIUM" }
  | some s => if s ∈ VALID_PRIORITIES then t else { t with priority := some "MEDIUM" }

/-- `normalizeTask` applied to every task of a document. -/
def normalizeDoc (d : Doc) : Doc :=
  { d with tasks := d.tasks.map normalizeTask }

/-! Concrete example documents, used to instantiate the theorems below
on closed inputs. -/

def wDocOne : Doc :=
  initChecklist "P" [⟨some "A", none, none, none, none, none, none⟩] "t0"

def wDocPrio : Doc :=
  initChecklist "W"
    [⟨some "A", none, some "LOW", none, none, none, none⟩,
     ⟨some "B", none, some "HIGH", none, none, none, none⟩,
     ⟨some "C", none, some "HIGH", none, none, none, none⟩] "t0"

def wDocInProgress : Doc :=
  { project_name := "W", created_at := "t0", last_updated := "t0"
    tasks :=
      [⟨1, "A", "", some "HIGH", none, "Done", [], [], "", "t0", none, some "t1", ""⟩,
       ⟨2, "B", "", some "LOW", none, "In Progress", [], [], "", "t0", some "t1", none, ""⟩,
       ⟨3, "C", "", some "CRITICAL", none, "Todo", [], [], "", "t0", none, none, ""⟩] }

def wDocCompleted : Doc :=
  { project_name := "W", created_at := "t0", last_updated := "t0"
    tasks := [⟨1, "A", "", some "MEDIUM", none, "Done", [], [], "", "t0", none, some "old", ""⟩] }

def wDocStartedNone : Doc :=
  { project_name := "W", created_at := "t0", last_updated := "t0"
    tasks := [⟨1, "A", "", some "MEDIUM", none, "Todo", [], [], "", "t0", none, none, ""⟩] }

def wDocStartedSet : Doc :=
  { project_name := "W", created_at := "t0", last_updated := "t0"
    tasks := [⟨1, "A", "", some "MEDIUM", none, "Todo", [], [], "", "t0", some "s1", none, ""⟩] }

def wDocNotes : Doc :=
  { project_name := "W", created_at := "t0", last_updated := "t0"
    tasks := [⟨1, "A", "", some "MEDIUM", none, "Todo", [], [], "", "t0", none, none, "old"⟩] }

def wDocProgress : Doc :=
  { project_name := "W", created_at := "t0", last_updated := "t0"
    tasks :=
      [⟨1, "A", "", some "MEDIUM", none, "Done", [], [], "", "t0", none, some "t1", ""⟩,
       ⟨2, "B", "", some "MEDIUM", none, "Todo", [], [], "", "t0", none, none, ""⟩] }

def wDocBogus : Doc :=
  { project_name := "W", created_at := "t0", last_updated := "t0"
    tasks :=
      [⟨1, "A", "", some "BOGUS", none, "Todo", [], [], "", "t0", none, none, ""⟩,
       ⟨2, "B", "", some "LOW", none, "Todo", [], [], "", "t0", none, none, ""⟩] }

def wTaskBogus : Task :=
  ⟨7, "X", "", some "BOGUS", none, "Todo", [], [], "", "t0", none, none, ""⟩

/-! ### Helper lemmas -/

lemma applyStatus_id (now status : String) (notes : Option String) (t : Task) :
    (applyStatus now status notes t).id = t.id := by
  unfold applyStatus
  cases hip : (status == "In Progress" && strOptFalsy t.started_at) <;>
  cases hd : (status == "Done") <;>
  cases hn : strOptFalsy notes <;>
  simp [hip, hd, hn]

lemma applyStatus_status (now status : String) (notes : Option String) (t : Task) :
    (applyStatus now status notes t).status = status := by
  unfold applyStatus
  cases hip : (status == "In Progress" && strOptFalsy t.started_at) <;>
  cases hd : (status == "Done") <;>
  cases hn : strOptFalsy notes <;>
  simp [hip, hd, hn]

lemma applyStatus_done_completed (now : String) (notes : Option String) (t : Task) :
    (applyStatus now "Done" notes t).completed_at = some now := by
  unfold applyStatus
  cases hip : strOptFalsy t.started_at <;>
  cases hn : strOptFalsy notes <;>
  simp [hip, hn]

lemma le_foldl_max (xs : List Int) : ∀ a : Int, a ≤ xs.foldl max a := by
  induction xs with
  | nil => intro a; exact le_refl a
  | cons y ys ih =>
      intro a
      exact le_trans (le_max_left a y) (ih (max a y))

lemma mem_le_foldl_max (xs : List Int) : ∀ (a x : Int), x ∈ xs → x ≤ xs.foldl max a := by
  induction xs with
  | nil => intro a x hx; cases hx
  | cons y ys ih =>
      intro a x hx
      rcases List.mem_cons.mp hx with h | h
      · subst h
        exact le_trans (le_max_right a x) (le_foldl_max ys (max a x))
      · exact ih (max a y) x h

lemma mem_le_pyMax (l : List Int) (x : Int) (hx : x ∈ l) : x ≤ pyMaxDefault0 l := by
  cases l with
  | nil => cases hx
  | cons a xs =>
      rcases List.mem_cons.mp hx with h | h
      · subst h; exact le_foldl_max xs x
      · exact mem_le_foldl_max xs a x h

lemma updateFirstTask_found (now status : String) (notes : Option String) (task_id : Int) :
    ∀ (l : List Task) (t : Task), l.find? (fun u => u.id == task_id) = some t →
      ∃ l', updateFirstTask now status notes task_id l = some l' ∧
        l'.find? (fun u => u.id == task_id) = some (applyStatus now status notes t) := by
  intro l
  induction l with
  | nil => intro t h; simp [List.find?] at h
  | cons x xs ih =>
      intro t h
      by_cases hx : x.id == task_id
      · rw [List.find?_cons_of_pos (p := fun u => u.id == task_id) xs hx] at h
        injection h with h
        subst h
        refine ⟨applyStatus now status notes x :: xs, ?_, ?_⟩
        · simp [updateFirstTask, hx]
        · have hid : ((applyStatus now status notes x).id == task_id) = true := by
            rw [applyStatus_id]; exact hx
          exact List.find?_cons_of_pos (p := fun u => u.id == task_id) xs hid
      · rw [List.find?_cons_of_neg (p := fun u => u.id == task_id) xs (by simpa using hx)] at h
        obtain ⟨l', hl', hfind⟩ := ih t h
        refine ⟨x :: l', ?_, ?_⟩
        · simp [updateFirstTask, hx, hl']
        · rw [List.find?_cons_of_neg (p := fun u => u.id == task_id) l' (by simpa using hx)]
          exact hfind

lemma updateFirstTask_none (now status : String) (notes : Option String) (task_id : Int) :
    ∀ l : List Task, l.find? (fun u => u.id == task_id) = none →
      updateFirstTask now status notes task_id l = none := by
  intro l
  induction l with
  | nil => intro _; rfl
  | cons x xs ih =>
      intro h
      rw [List.find?_eq_none] at h
      have hx : (x.id == task_id) = false := by
        have := h x (List.mem_cons_self x xs)
        simpa using this
      have hxs : xs.find? (fun u => u.id == task_id) = none := by
        rw [List.find?_eq_none]
        intro u hu
        exact h u (List.mem_cons_of_mem x hu)
      simp [updateFirstTask, hx, ih hxs]

lemma get_task_update_task_status (d : Doc) (now : String) (task_id : Int) (status : String)
    (notes : Option String) (t : Task)
    (h : get_task d task_id = some t) (hs : status ∈ VALID_STATUSES) :
    get_task (update_task_status d now task_id status notes).doc task_id =
      some (applyStatus now status notes t) := by
  unfold get_task at h
  obtain ⟨l', hl', hfind⟩ := updateFirstTask_found now status notes task_id d.tasks t h
  unfold update_task_status
  rw [if_pos hs, hl']
  exact hfind

lemma head_orderedInsert (x : Task) (s : List Task) :
    (List.orderedInsert taskLe x s).head? =
      match s.head? with
      | none => some x
      | some y => if taskLe x y then some x else some y := by
  cases s with
  | nil => rfl
  | cons y ys =>
      by_cases h : taskLe x y
      · simp [List.orderedInsert, h]
      · simp [List.orderedInsert, h]

lemma head_insertionSort_eq_firstMinTask (l : List Task) :
    (List.insertionSort taskLe l).head? = firstMinTask l := by
  induction l with
  | nil => rfl
  | cons x xs ih =>
      rw [List.insertionSort, head_orderedInsert, ih]
      rfl

lemma firstMinTask_ne_none (l : List Task) (h : l ≠ []) :
    ∃ t, firstMinTask l = some t := by
  cases l with
  | nil => exact absurd rfl h
  | cons x xs =>
      unfold firstMinTask
      cases firstMinTask xs with
      | none => exact ⟨x, rfl⟩
      | some y =>
          by_cases hxy : taskLe x y
          · exact ⟨x, by simp [hxy]⟩
          · exact ⟨y, by simp [hxy]⟩

lemma firstMinTask_none_iff (l : List Task) :
    firstMinTask l = none ↔ l = [] := by
  constructor
  · intro h
    by_contra hne
    obtain ⟨t, ht⟩ := firstMinTask_ne_none l hne
    rw [h] at ht
    cases ht
  · intro h; subst h; rfl

lemma firstMinTask_spec (l : List Task) :
    ∀ t : Task, firstMinTask l = some t →
      ∃ (i : Nat) (hi : i < l.length),
        t = l.get ⟨i, hi⟩ ∧
        (∀ u ∈ l, priority_order_get t.priority ≤ priority_order_get u.priority) ∧
        (∀ j (hj : j < i),
          priority_order_get t.priority <
            priority_order_get (l.get ⟨j, Nat.lt_trans hj hi⟩).priority) := by
  induction l with
  | nil => intro t ht; cases ht
  | cons x xs ih =>
      intro t ht
      unfold firstMinTask at ht
      cases hxs : firstMinTask xs with
      | none =>
          rw [hxs] at ht
          injection ht with ht
          subst ht
          have hnil : xs = [] := (firstMinTask_none_iff xs).mp hxs
          subst hnil
          refine ⟨0, by simp, rfl, ?_, ?_⟩
          · intro u hu
            rcases List.mem_singleton.mp hu with rfl
            exact le_refl _
          · intro j hj; cases hj
      | some y =>
          rw [hxs] at ht
          dsimp only at ht
          obtain ⟨i, hi, hy, hmin, hstrict⟩ := ih y hxs
          by_cases hxy : taskLe x y
          · rw [if_pos hxy] at ht
            injection ht with ht
            subst ht
            refine ⟨0, by simp, rfl, ?_, ?_⟩
            · intro u hu
              rcases List.mem_cons.mp hu with rfl | hu
              · exact le_refl _
              · exact le_trans hxy (hmin u hu)
            · intro j hj; cases hj
          · rw [if_neg hxy] at ht
            injection ht with ht
            subst ht
            have hyx : priority_order_get y.priority < priority_order_get x.priority :=
              Nat.lt_of_not_le hxy
            refine ⟨i + 1, Nat.succ_lt_succ hi, by simpa using hy, ?_, ?_⟩
            · intro u hu
              rcases List.mem_cons.mp hu with rfl | hu
              · exact le_of_lt hyx
              · exact hmin u hu
            · intro j hj
              cases j with
              | zero => simpa using hyx
              | succ j' =>
                  have hj' : j' < i := Nat.lt_of_succ_lt_succ hj
                  simpa using hstrict j' hj'

lemma find?_first_of_prefix_none (p : Task → Bool) (l₁ l₂ : List Task) (t : Task)
    (h1 : ∀ u ∈ l₁, p u = false) (h2 : p t = true) :
    (l₁ ++ t :: l₂).find? p = some t := by
  rw [List.find?_append]
  have hl1 : l₁.find? p = none := by
    rw [List.find?_eq_none]
    intro x hx
    simp [h1 x hx]
  rw [hl1, List.find?_cons_of_pos (p := p) l₂ h2]
  rfl

lemma priority_order_get_invalid (s : String) (h : s ∉ VALID_PRIORITIES) :
    priority_order_get (some s) = 2 := by
  unfold priority_order_get
  dsimp only [Option.getD]
  split <;> simp_all [VALID_PRIORITIES]

lemma normalizeTask_id (t : Task) : (normalizeTask t).id = t.id := by
  unfold normalizeTask
  cases hp : t.priority with
  | none => rfl
  | some s =>
      dsimp only
      split <;> rfl

lemma normalizeTask_status (t : Task) : (normalizeTask t).status = t.status := by
  unfold normalizeTask
  cases hp : t.priority with
  | none => rfl
  | some s =>
      dsimp only
      split <;> rfl

lemma normalizeTask_dependencies (t : Task) :
    (normalizeTask t).dependencies = t.dependencies := by
  unfold normalizeTask
  cases hp : t.priority with
  | none => rfl
  | some s =>
      dsimp only
      split <;> rfl

lemma normalizeTask_key (t : Task) :
    priority_order_get (normalizeTask t).priority = priority_order_get t.priority := by
  unfold normalizeTask
  cases hp : t.priority with
  | none => rfl
  | some s =>
      dsimp only
      by_cases h : s ∈ VALID_PRIORITIES
      · rw [if_pos h, hp]
      · rw [if_neg h]
        dsimp only
        rw [priority_order_get_invalid s h]
        rfl

lemma taskLe_normalize (x y : Task) :
    taskLe (normalizeTask x) (normalizeTask y) ↔ taskLe x y := by
  unfold taskLe
  rw [normalizeTask_key, normalizeTask_key]

lemma find?_inprogress_map (l : List Task) :
    (l.map normalizeTask).find? (fun t => t.status == "In Progress") =
      Option.map normalizeTask (l.find? (fun t => t.status == "In Progress")) := by
  rw [List.find?_map]
  have hp : ((fun t : Task => t.status == "In Progress") ∘ normalizeTask) =
      (fun t : Task => t.status == "In Progress") := by
    funext t
    simp [Function.comp, normalizeTask_status]
  rw [hp]

lemma doneIds_normalize (d : Doc) : doneIds (normalizeDoc d) = doneIds d := by
  unfold doneIds normalizeDoc
  dsimp only
  rw [List.filter_map, List.map_map]
  congr 1
  · funext t
    simp [Function.comp, normalizeTask_id]
  · congr 1
    funext t
    simp [Function.comp, normalizeTask_status]

lemma eligibleTasks_normalize (d : Doc) :
    eligibleTasks (normalizeDoc d) = (eligibleTasks d).map normalizeTask := by
  unfold eligibleTasks
  rw [doneIds_normalize]
  show (d.tasks.map normalizeTask).filter _ = _
  rw [List.filter_map]
  have hq : ((fun t : Task => t.status == "Todo" &&
        t.dependencies.all fun dep => (doneIds d).contains dep) ∘ normalizeTask) =
      (fun t : Task => t.status == "Todo" &&
        t.dependencies.all fun dep => (doneIds d).contains dep) := by
    funext t
    simp [Function.comp, normalizeTask_status, normalizeTask_dependencies]
  rw [hq]

lemma firstMinTask_map_normalize (l : List Task) :
    firstMinTask (l.map normalizeTask) = Option.map normalizeTask (firstMinTask l) := by
  induction l with
  | nil => rfl
  | cons x xs ih =>
      rw [List.map_cons]
      unfold firstMinTask
      rw [ih]
      cases hxs : firstMinTask xs with
      | none => rfl
      | some y =>
          dsimp only [Option.map]
          by_cases h : taskLe x y
          · rw [if_pos h, if_pos ((taskLe_normalize x y).mpr h)]
          · rw [if_neg h, if_neg (fun hc => h ((taskLe_normalize x y).mp hc))]

lemma get_next_task_normalize_id (d : Doc) :
    (get_next_task (normalizeDoc d)).map Task.id = (get_next_task d).map Task.id := by
  unfold get_next_task
  have htasks : (normalizeDoc d).tasks = d.tasks.map normalizeTask := rfl
  rw [htasks, find?_inprogress_map]
  cases hf : d.tasks.find? (fun t => t.status == "In Progress") with
  | some t => simp [normalizeTask_id]
  | none =>
      dsimp only [Option.map_none]
      rw [head_insertionSort_eq_firstMinTask, head_insertionSort_eq_firstMinTask,
        eligibleTasks_normalize, firstMinTask_map_normalize]
      cases firstMinTask (eligibleTasks d) <;> simp [normalizeTask_id]

lemma map_snd_enumFrom {β γ : Type} (g : β → γ) :
    ∀ (n : Nat) (l : List β), (List.enumFrom n l).map (fun p => g p.2) = l.map g := by
  intro n l
  induction l generalizing n with
  | nil => rfl
  | cons x xs ih => simp [List.enumFrom, ih]

lemma applyStatus_started_of_falsy (now : String) (notes : Option String) (t : Task)
    (h : strOptFalsy t.started_at = true) :
    (applyStatus now "In Progress" notes t).started_at = some now := by
  unfold applyStatus
  cases hn : strOptFalsy notes <;> simp [h, hn]

lemma applyStatus_started_of_set (now : String) (notes : Option String) (t : Task)
    (h : strOptFalsy t.started_at = false) :
    (applyStatus now "In Progress" notes t).started_at = t.started_at := by
  unfold applyStatus
  cases hn : strOptFalsy notes <;> simp [h, hn]

lemma applyStatus_notes_of_nonempty (now status s : String) (t : Task) (hne : s ≠ "") :
    (applyStatus now status (some s) t).notes = s := by
  unfold applyStatus
  have hfal : strOptFalsy (some s) = false := by
    simp [strOptFalsy, hne]
  cases hip : (status == "In Progress" && strOptFalsy t.started_at) <;>
  cases hd : (status == "Done") <;>
  simp [hip, hd, hfal]

lemma applyStatus_notes_of_falsy (now status : String) (notes : Option String) (t : Task)
    (h : strOptFalsy notes = true) :
    (applyStatus now status notes t).notes = t.notes := by
  unfold applyStatus
  cases hip : (status == "In Progress" && strOptFalsy t.started_at) <;>
  cases hd : (status == "Done") <;>
  simp [hip, hd, h]

lemma removeFirstTask_none (task_id : Int) :
    ∀ l : List Task, l.find? (fun u => u.id == task_id) = none →
      removeFirstTask task_id l = none := by
  intro l
  induction l with
  | nil => intro _; rfl
  | cons x xs ih =>
      intro h
      rw [List.find?_eq_none] at h
      have hx : (x.id == task_id) = false := by
        simpa using h x (List.mem_cons_self x xs)
      have hxs : xs.find? (fun u => u.id == task_id) = none := by
        rw [List.find?_eq_none]
        intro u hu
        exact h u (List.mem_cons_of_mem x hu)
      simp [removeFirstTask, hx, ih hxs]

/-! ### Claim theorems -/

/-- C1 (counterexample): the claim that `add_task` ids are never reused
even after `remove_task` is false.  Starting from the empty document:
the first two `add_task` calls return ids 1 and 2, removing task 2
succeeds, and the next `add_task` returns 2 again — the id of the
removed task is reassigned, and the sequence of returned ids 1, 2, 2 is
not strictly increasing. -/
theorem add_task_reuses_id_after_remove :
    (add_task emptyDoc "t1" "A").res = Except.ok 1 ∧
    (add_task (add_task emptyDoc "t1" "A").doc "t2" "B").res = Except.ok 2 ∧
    (remove_task (add_task (add_task emptyDoc "t1" "A").doc "t2" "B").doc "t3" 2).res = true ∧
    (add_task (remove_task (add_task (add_task emptyDoc "t1" "A").doc "t2" "B").doc "t3" 2).doc
      "t4" "C").res = Except.ok 2 := by
  decide

/-- C1 (amended): every successful `add_task` returns an id strictly
greater than every id present in the document at the time of the call
and appends a single task bearing that id.  Consequently, over any
sequence of `add_task` calls with no interleaved `remove_task`, the
returned ids are strictly increasing and never reused; but after a
`remove_task` deletes the task holding the maximal id, that id can be
assigned again. -/
theorem add_task_fresh_id (d : Doc) (now title descr priority : String)
    (phase : Option String) (deps : Option (List Int)) (files : Option (List String))
    (verif : String) (i : Int)
    (h : (add_task d now title descr priority phase deps files verif).res = Except.ok i) :
    (∀ t ∈ d.tasks, t.id < i) ∧
    ∃ nt : Task, (add_task d now title descr priority phase deps files verif).doc.tasks =
      d.tasks ++ [nt] ∧ nt.id = i := by
  by_cases hp : priority ∈ VALID_PRIORITIES
  · have hres : (add_task d now title descr priority phase deps files verif).res =
        Except.ok (pyMaxDefault0 (d.tasks.map fun t => t.id) + 1) := by
      unfold add_task
      rw [if_pos hp]
    rw [hres] at h
    injection h with h
    constructor
    · intro t ht
      have hle : t.id ≤ pyMaxDefault0 (d.tasks.map fun t => t.id) :=
        mem_le_pyMax _ t.id (List.mem_map_of_mem _ ht)
      omega
    · refine ⟨⟨pyMaxDefault0 (d.tasks.map fun t => t.id) + 1, title, descr, some priority,
          phase, "Todo", deps.getD [], files.getD [], verif, now, none, none, ""⟩, ?_, h⟩
      unfold add_task
      rw [if_pos hp]
      rfl
  · have hres : (add_task d now title descr priority phase deps files verif).res =
        Except.error ("Invalid priority: " ++ priority) := by
      unfold add_task
      rw [if_neg hp]
    rw [hres] at h
    cases h

/-- Witness for C1 (amended): on a one-task document the next `add_task`
returns id 2, larger than the existing id 1, and appends the task. -/
theorem add_task_fresh_id_witness :
    (∀ t ∈ wDocOne.tasks, t.id < 2) ∧
    ∃ nt : Task, (add_task wDocOne "t1" "B" "" "MEDIUM" none none none "").doc.tasks =
      wDocOne.tasks ++ [nt] ∧ nt.id = 2 :=
  add_task_fresh_id wDocOne "t1" "B" "" "MEDIUM" none none none "" 2 (by decide)

/-- C2 (counterexample): `initialize` does not validate priorities.
Initializing with a task whose priority is `"BOGUS"` (not in
`VALID_PRIORITIES`) succeeds: the task is created carrying the invalid
priority and the document is persisted (`last_updated` stamped by
`_save`), instead of failing with a validation error. -/
theorem initChecklist_accepts_invalid_priority :
    ("BOGUS" ∉ VALID_PRIORITIES) ∧
    (initChecklist "P" [⟨some "A", none, some "BOGUS", none, none, none, none⟩] "t0").tasks.map
      (fun t => t.priority) = [some "BOGUS"] ∧
    (initChecklist "P" [⟨some "A", none, some "BOGUS", none, none, none, none⟩] "t0").last_updated
      = "t0" := by
  decide

/-- C2 (amended): `add_task` does validate the supplied priority against
`VALID_PRIORITIES` — an out-of-set value fails with a validation error,
the task is not created and the document is not persisted — but
`initialize` performs no validation: it stores whatever priority value
each task spec supplies (defaulting to `"MEDIUM"` only when the key is
absent). -/
theorem priority_validation_amended (d : Doc) (now title descr priority : String)
    (phase : Option String) (deps : Option (List Int)) (files : Option (List String))
    (verif : String) (pn : String) (tasks : List InputTask)
    (hp : priority ∉ VALID_PRIORITIES) :
    add_task d now title descr priority phase deps files verif =
      { res := Except.error ("Invalid priority: " ++ priority), doc := d, saved := false } ∧
    (initChecklist pn tasks now).tasks.map (fun t => t.priority) =
      tasks.map (fun it => some (it.priority.getD "MEDIUM")) := by
  constructor
  · unfold add_task
    rw [if_neg hp]
  · show ((List.enumFrom 1 tasks).map fun p => processTask now p.1 p.2).map (fun t => t.priority)
      = _
    rw [List.map_map]
    exact map_snd_enumFrom (fun it => some (it.priority.getD "MEDIUM")) 1 tasks

/-- Witness for C2 (amended), at priority `"BOGUS"` and a two-spec
`initialize` input. -/
theorem priority_validation_amended_witness :
    add_task emptyDoc "n" "T" "" "BOGUS" none none none "" =
      { res := Except.error ("Invalid priority: " ++ "BOGUS"), doc := emptyDoc, saved := false } ∧
    (initChecklist "P" [⟨some "A", none, some "HIGH", none, none, none, none⟩,
        ⟨some "B", none, none, none, none, none, none⟩] "n").tasks.map (fun t => t.priority) =
      [⟨some "A", none, some "HIGH", none, none, none, none⟩,
        (⟨some "B", none, none, none, none, none, none⟩ : InputTask)].map
        (fun it => some (it.priority.getD "MEDIUM")) :=
  priority_validation_amended emptyDoc "n" "T" "" "BOGUS" none none none "" "P"
    [⟨some "A", none, some "HIGH", none, none, none, none⟩,
     ⟨some "B", none, none, none, none, none, none⟩] (by decide)

/-- C3: when no task is `In Progress` and the eligible list (Todo tasks
with all dependencies Done) is non-empty, `get_next_task` returns the
eligible task of minimal priority tier (`CRITICAL` < `HIGH` < `MEDIUM`
< `LOW`), and among equal-tier eligible tasks the one appearing
earliest in task-list order: the returned task sits at some index `i`
of the eligible list, its tier is ≤ every eligible task's tier, and
every eligible task strictly before index `i` has a strictly larger
tier. -/
theorem get_next_task_selects_min_priority (d : Doc)
    (h1 : ∀ t ∈ d.tasks, t.status ≠ "In Progress")
    (h2 : eligibleTasks d ≠ []) :
    ∃ (i : Nat) (hi : i < (eligibleTasks d).length),
      get_next_task d = some ((eligibleTasks d).get ⟨i, hi⟩) ∧
      (∀ u ∈ eligibleTasks d,
        priority_order_get ((eligibleTasks d).get ⟨i, hi⟩).priority ≤
          priority_order_get u.priority) ∧
      (∀ j (hj : j < i),
        priority_order_get ((eligibleTasks d).get ⟨i, hi⟩).priority <
          priority_order_get ((eligibleTasks d).get ⟨j, Nat.lt_trans hj hi⟩).priority) := by
  have hfind : d.tasks.find? (fun t => t.status == "In Progress") = none := by
    rw [List.find?_eq_none]
    intro t ht
    simpa using h1 t ht
  obtain ⟨t, ht⟩ := firstMinTask_ne_none (eligibleTasks d) h2
  obtain ⟨i, hi, hti, hmin, hstrict⟩ := firstMinTask_spec (eligibleTasks d) t ht
  subst hti
  refine ⟨i, hi, ?_, hmin, hstrict⟩
  unfold get_next_task
  rw [hfind]
  dsimp only
  rw [head_insertionSort_eq_firstMinTask, ht]

/-- Witness for C3: three eligible tasks with priorities `LOW`, `HIGH`,
`HIGH`; the theorem applies and locates the returned task inside the
eligible list. -/
theorem get_next_task_selects_min_priority_witness :
    ∃ (i : Nat) (hi : i < (eligibleTasks wDocPrio).length),
      get_next_task wDocPrio = some ((eligibleTasks wDocPrio).get ⟨i, hi⟩) ∧
      (∀ u ∈ eligibleTasks wDocPrio,
        priority_order_get ((eligibleTasks wDocPrio).get ⟨i, hi⟩).priority ≤
          priority_order_get u.priority) ∧
      (∀ j (hj : j < i),
        priority_order_get ((eligibleTasks wDocPrio).get ⟨i, hi⟩).priority <
          priority_order_get
            ((eligibleTasks wDocPrio).get ⟨j, Nat.lt_trans hj hi⟩).priority) :=
  get_next_task_selects_min_priority wDocPrio (by decide) (by decide)

/-- C4: whenever the task list splits as `l₁ ++ t :: l₂` with `t` the
first `In Progress` task (no task of `l₁` is `In Progress`),
`get_next_task` returns `t`, regardless of the statuses, priorities or
eligibility of every other task. -/
theorem get_next_task_in_progress_first (d : Doc) (l₁ l₂ : List Task) (t : Task)
    (hsplit : d.tasks = l₁ ++ t :: l₂)
    (ht : t.status = "In Progress")
    (hbefore : ∀ u ∈ l₁, u.status ≠ "In Progress") :
    get_next_task d = some t := by
  have hf : (l₁ ++ t :: l₂).find? (fun u => u.status == "In Progress") = some t := by
    apply find?_first_of_prefix_none
    · intro u hu
      simpa using hbefore u hu
    · simp [ht]
  unfold get_next_task
  rw [hsplit, hf]

/-- Witness for C4: a document whose second task is `In Progress`
(first is `Done`, third is an eligible `CRITICAL` `Todo`); the
in-progress task is returned. -/
theorem get_next_task_in_progress_first_witness :
    get_next_task wDocInProgress =
      some ⟨2, "B", "", some "LOW", none, "In Progress", [], [], "", "t0", some "t1", none, ""⟩ :=
  get_next_task_in_progress_first wDocInProgress
    [⟨1, "A", "", some "HIGH", none, "Done", [], [], "", "t0", none, some "t1", ""⟩]
    [⟨3, "C", "", some "CRITICAL", none, "Todo", [], [], "", "t0", none, none, ""⟩]
    ⟨2, "B", "", some "LOW", none, "In Progress", [], [], "", "t0", some "t1", none, ""⟩
    rfl rfl (by decide)

/-- C5: for an existing task id, `update_task_status(id, "Done")` always
stores `completed_at = now` on that task — unconditionally, also when
`completed_at` was already set by an earlier `Done` transition (it is
overwritten). -/
theorem update_done_sets_completed (d : Doc) (now : String) (task_id : Int)
    (notes : Option String) (t : Task) (h : get_task d task_id = some t) :
    ∃ t2, get_task (update_task_status d now task_id "Done" notes).doc task_id = some t2 ∧
      t2.completed_at = some now :=
  ⟨applyStatus now "Done" notes t,
   get_task_update_task_status d now task_id "Done" notes t h (by decide),
   applyStatus_done_completed now notes t⟩

/-- Witness for C5: the task's `completed_at` is already `some "old"`
and is overwritten with the new timestamp. -/
theorem update_done_sets_completed_witness :
    ∃ t2, get_task (update_task_status wDocCompleted "t9" 1 "Done" none).doc 1 = some t2 ∧
      t2.completed_at = some "t9" :=
  update_done_sets_completed wDocCompleted "t9" 1 none
    ⟨1, "A", "", some "MEDIUM", none, "Done", [], [], "", "t0", none, some "old", ""⟩
    (by decide)

/-- C6: for an existing task id, `update_task_status(id, "In Progress")`
sets `started_at` to now only when it is currently unset (`None`); when
a (non-empty) timestamp was already recorded, a later transition into
`In Progress` leaves it unchanged. -/
theorem update_in_progress_started_once (d : Doc) (now : String) (task_id : Int)
    (notes : Option String) (t : Task) (h : get_task d task_id = some t) :
    (t.started_at = none →
      ∃ t2, get_task (update_task_status d now task_id "In Progress" notes).doc task_id =
        some t2 ∧ t2.started_at = some now) ∧
    (∀ s, t.started_at = some s → s ≠ "" →
      ∃ t2, get_task (update_task_status d now task_id "In Progress" notes).doc task_id =
        some t2 ∧ t2.started_at = some s) := by
  have hg := get_task_update_task_status d now task_id "In Progress" notes t h (by decide)
  constructor
  · intro hnone
    refine ⟨applyStatus now "In Progress" notes t, hg, ?_⟩
    apply applyStatus_started_of_falsy
    rw [hnone]
    rfl
  · intro s hs hne
    refine ⟨applyStatus now "In Progress" notes t, hg, ?_⟩
    rw [applyStatus_started_of_set, hs]
    rw [hs]
    simp [strOptFalsy, hne]

/-- Witness for C6, applying the theorem to a task with `started_at`
unset (it gets the new timestamp) and to a task with `started_at`
already `some "s1"` (it is preserved). -/
theorem update_in_progress_started_once_witness :
    (∃ t2, get_task (update_task_status wDocStartedNone "t9" 1 "In Progress" none).doc 1 =
      some t2 ∧ t2.started_at = some "t9") ∧
    (∃ t2, get_task (update_task_status wDocStartedSet "t9" 1 "In Progress" none).doc 1 =
      some t2 ∧ t2.started_at = some "s1") :=
  ⟨(update_in_progress_started_once wDocStartedNone "t9" 1 none
      ⟨1, "A", "", some "MEDIUM", none, "Todo", [], [], "", "t0", none, none, ""⟩
      (by decide)).1 rfl,
   (update_in_progress_started_once wDocStartedSet "t9" 1 none
      ⟨1, "A", "", some "MEDIUM", none, "Todo", [], [], "", "t0", some "s1", none, ""⟩
      (by decide)).2 "s1" rfl (by decide)⟩

/-- C7 (counterexample): supplying the empty string as `notes` does NOT
overwrite the stored notes, contrary to the claim that every supplied
notes value — including the empty string — replaces the field.  The
code guards the assignment with Python truthiness (`if notes:`), so
`""` is ignored: a task whose notes are `"old"` keeps `"old"` after
`update_task_status(1, "Todo", notes="")`. -/
theorem update_empty_notes_not_overwritten :
    ((get_task (update_task_status wDocNotes "t9" 1 "Todo" (some "")).doc 1).map
      (fun t => t.notes) = some "old") ∧
    some "old" ≠ some "" := by
  decide

/-- C7 (amended): when `update_task_status` on an existing id is given a
non-empty notes string, the stored notes afterwards equal exactly the
supplied value (replaced, not appended); when `notes` is absent or the
empty string, the stored notes are left unchanged. -/
theorem update_notes_amended (d : Doc) (now : String) (task_id : Int) (status : String)
    (notes : Option String) (t : Task)
    (h : get_task d task_id = some t) (hs : status ∈ VALID_STATUSES) :
    (∀ s, notes = some s → s ≠ "" →
      ∃ t2, get_task (update_task_status d now task_id status notes).doc task_id = some t2 ∧
        t2.notes = s) ∧
    ((notes = none ∨ notes = some "") →
      ∃ t2, get_task (update_task_status d now task_id status notes).doc task_id = some t2 ∧
        t2.notes = t.notes) := by
  have hg := get_task_update_task_status d now task_id status notes t h hs
  constructor
  · intro s hsome hne
    subst hsome
    exact ⟨applyStatus now status (some s) t, hg,
      applyStatus_notes_of_nonempty now status s t hne⟩
  · intro hfal
    refine ⟨applyStatus now status notes t, hg, ?_⟩
    apply applyStatus_notes_of_falsy
    rcases hfal with rfl | rfl <;> rfl

/-- Witness for C7 (amended): a non-empty note `"new"` replaces `"old"`;
an absent note leaves `"old"` in place. -/
theorem update_notes_amended_witness :
    (∃ t2, get_task (update_task_status wDocNotes "t9" 1 "Todo" (some "new")).doc 1 = some t2 ∧
      t2.notes = "new") ∧
    (∃ t2, get_task (update_task_status wDocNotes "t9" 1 "Todo" none).doc 1 = some t2 ∧
      t2.notes = "old") :=
  ⟨(update_notes_amended wDocNotes "t9" 1 "Todo" (some "new")
      ⟨1, "A", "", some "MEDIUM", none, "Todo", [], [], "", "t0", none, none, "old"⟩
      (by decide) (by decide)).1 "new" rfl (by decide),
   (update_notes_amended wDocNotes "t9" 1 "Todo" none
      ⟨1, "A", "", some "MEDIUM", none, "Todo", [], [], "", "t0", none, none, "old"⟩
      (by decide) (by decide)).2 (Or.inl rfl)⟩

/-- C8: mutations are atomic on failure.  `update_task_status` with a
status outside `VALID_STATUSES` fails with a validation error and
leaves the document unchanged and unpersisted; `update_task_status`
with an id not present returns `false` (no error) with the document
unchanged and unpersisted; `remove_task` with an id not present
likewise returns `false` with the document unchanged and unpersisted. -/
theorem mutations_atomic_on_failure (d : Doc) (now : String) (task_id : Int)
    (status : String) (notes : Option String) :
    (status ∉ VALID_STATUSES →
      update_task_status d now task_id status notes =
        { res := Except.error ("Invalid status: " ++ status), doc := d, saved := false }) ∧
    (get_task d task_id = none → status ∈ VALID_STATUSES →
      update_task_status d now task_id status notes =
        { res := Except.ok false, doc := d, saved := false }) ∧
    (get_task d task_id = none →
      remove_task d now task_id = { res := false, doc := d, saved := false }) := by
  refine ⟨?_, ?_, ?_⟩
  · intro hs
    unfold update_task_status
    rw [if_neg hs]
  · intro hn hs
    unfold get_task at hn
    unfold update_task_status
    rw [if_pos hs, updateFirstTask_none now status notes task_id d.tasks hn]
  · intro hn
    unfold get_task at hn
    unfold remove_task
    rw [removeFirstTask_none task_id d.tasks hn]

/-- Witness for C8: on a one-task document (only id 1 exists), the
status `"Bogus"` is rejected without change, and updating or removing
the missing id 2 returns false without change. -/
theorem mutations_atomic_on_failure_witness :
    (update_task_status wDocNotes "t9" 1 "Bogus" none =
      { res := Except.error ("Invalid status: " ++ "Bogus"), doc := wDocNotes, saved := false }) ∧
    (update_task_status wDocNotes "t9" 2 "Todo" none =
      { res := Except.ok false, doc := wDocNotes, saved := false }) ∧
    (remove_task wDocNotes "t9" 2 = { res := false, doc := wDocNotes, saved := false }) :=
  ⟨(mutations_atomic_on_failure wDocNotes "t9" 1 "Bogus" none).1 (by decide),
   (mutations_atomic_on_failure wDocNotes "t9" 2 "Todo" none).2.1 (by decide) (by decide),
   (mutations_atomic_on_failure wDocNotes "t9" 2 "Todo" none).2.2 (by decide)⟩

/-- C9: `get_progress` never divides by zero: with zero tasks the
completion percentage is exactly `0` (the early return), and with
`n > 0` tasks of which `d` are `Done` it equals
`round(d / n * 100, 1)`. -/
theorem get_progress_percentage_safe (d : Doc) :
    (d.tasks = [] → (get_progress d).percentage = 0) ∧
    (d.tasks ≠ [] →
      (get_progress d).percentage =
        round1 (((countStatus d "Done" : ℚ) / (d.tasks.length : ℚ)) * 100)) := by
  constructor
  · intro h
    unfold get_progress
    rw [h]
    rfl
  · intro h
    have hlen : d.tasks.length ≠ 0 := by
      simpa using fun hc => h (List.length_eq_zero.mp hc)
    unfold get_progress
    rw [if_neg hlen]

/-- Witness for C9: the empty document reports `0`; a document with one
`Done` task out of two reports `round(1/2*100, 1)`. -/
theorem get_progress_percentage_safe_witness :
    (get_progress emptyDoc).percentage = 0 ∧
    (get_progress wDocProgress).percentage =
      round1 (((countStatus wDocProgress "Done" : ℚ) / (wDocProgress.tasks.length : ℚ)) * 100) :=
  ⟨(get_progress_percentage_safe emptyDoc).1 rfl,
   (get_progress_percentage_safe wDocProgress).2 (by decide)⟩

/-- C10 (implicit): `get_next_task` is total over tasks whose priority
is missing or outside the enumerated set: replacing every such priority
by `"MEDIUM"` does not change which task id `get_next_task` returns
(such tasks are neither excluded nor do they fail), and the sorting key
of any such priority is exactly tier 2, the `MEDIUM` tier. -/
theorem get_next_task_invalid_priority_as_medium (d : Doc) :
    (get_next_task (normalizeDoc d)).map Task.id = (get_next_task d).map Task.id ∧
    ∀ t : Task, (∀ s, t.priority = some s → s ∉ VALID_PRIORITIES) →
      priority_order_get t.priority = 2 := by
  refine ⟨get_next_task_normalize_id d, ?_⟩
  intro t hinv
  cases hp : t.priority with
  | none => rfl
  | some s => exact priority_order_get_invalid s (hinv s hp)

/-- Witness for C10: a document whose first task has priority
`"BOGUS"`; normalization to `MEDIUM` does not change the selected id,
and the sorting key of a `"BOGUS"`-priority task is 2. -/
theorem get_next_task_invalid_priority_as_medium_witness :
    ((get_next_task (normalizeDoc wDocBogus)).map Task.id =
      (get_next_task wDocBogus).map Task.id) ∧
    priority_order_get wTaskBogus.priority = 2 :=
  ⟨(get_next_task_invalid_priority_as_medium wDocBogus).1,
   (get_next_task_invalid_priority_as_medium wDocBogus).2 wTaskBogus
     (fun s hs => by
       injection hs with hs
       subst hs
       decide)⟩

end Checklist
